import Mathlib

/-!
Verification development for the `ola` command-line LLM client.

The definitions below are a shallow embedding of the parts of the program
that the verified properties speak about:

* a JSON value model and parser standing in for the `serde_json` calls made
  by the wire adapters (`src/api/ollama.rs`, `src/api/openai.rs`,
  `src/api/gemini.rs`);
* the per-line stream processing of the Ollama NDJSON adapter and the
  OpenAI SSE adapter (`Ollama::send_prompt`, `OpenAI::send_prompt`);
* the provider dispatch of `ApiClient::new` (`src/api/mod.rs`);
* the post-hoc `<think>...</think>` filter of `stream_response`
  (`src/prompt.rs`), i.e. the single `Regex::replace_all` pass with the
  non-greedy pattern;
* the prompt assembler `format_prompt` (`src/api/mod.rs`);
* the recursive-wave orchestration of `run_prompt` (`src/main.rs`) and the
  iterative feedback loop `interactive_iterations` (`src/prompt.rs`).

HTTP transport, terminals and files are external collaborators; the
embedding takes the response body (split into lines, as the source's
`BufReader::lines` does) and user input as explicit arguments, and returns
the accumulated text together with the list of fragments echoed to stdout.
-/

/-! ## JSON values

Model of `serde_json::Value`.  The adapters only ever read strings out of
parsed values, so a number is kept as its lexeme; its numeric value is
never consumed by the program fragments verified here. -/

inductive Json where
  | null : Json
  | bool (b : Bool) : Json
  | num (lexeme : String) : Json
  | str (s : String) : Json
  | arr (elems : List Json) : Json
  | obj (members : List (String × Json)) : Json

/-- Whitespace characters accepted between JSON tokens (RFC 8259). -/
def jsonWs (c : Char) : Bool :=
  c = ' ' || c = '\t' || c = '\n' || c = '\r'

/-- Drop leading JSON whitespace. -/
def skipWs : List Char → List Char
  | [] => []
  | c :: cs => if jsonWs c then skipWs cs else c :: cs

/-- Value of a hexadecimal digit. -/
def hexVal (c : Char) : Option Nat :=
  if '0' ≤ c ∧ c ≤ '9' then some (c.toNat - '0'.toNat)
  else if 'a' ≤ c ∧ c ≤ 'f' then some (c.toNat - 'a'.toNat + 10)
  else if 'A' ≤ c ∧ c ≤ 'F' then some (c.toNat - 'A'.toNat + 10)
  else none

/-- Character denoted by a one-letter escape sequence. -/
def escChar (c : Char) : Option Char :=
  if c = '"' then some '"'
  else if c = '\\' then some '\\'
  else if c = '/' then some '/'
  else if c = 'b' then some (Char.ofNat 8)
  else if c = 'f' then some (Char.ofNat 12)
  else if c = 'n' then some '\n'
  else if c = 'r' then some '\r'
  else if c = 't' then some '\t'
  else none

/-- Parse the body of a JSON string (the opening quote has been consumed);
returns the decoded string and the input following the closing quote. -/
def parseStringBody : List Char → Option (String × List Char)
  | [] => none
  | c :: cs =>
    if c = '"' then some ("", cs)
    else if c = '\\' then
      match cs with
      | [] => none
      | e :: cs2 =>
        if e = 'u' then
          match cs2 with
          | h1 :: h2 :: h3 :: h4 :: cs3 =>
            match hexVal h1, hexVal h2, hexVal h3, hexVal h4 with
            | some a, some b, some c3, some d =>
              match parseStringBody cs3 with
              | some (s, rest) =>
                some (String.mk [Char.ofNat (((a * 16 + b) * 16 + c3) * 16 + d)] ++ s, rest)
              | none => none
            | _, _, _, _ => none
          | _ => none
        else
          match escChar e with
          | some ec =>
            match parseStringBody cs2 with
            | some (s, rest) => some (String.mk [ec] ++ s, rest)
            | none => none
          | none => none
    else if c.toNat < 32 then none
    else
      match parseStringBody cs with
      | some (s, rest) => some (String.mk [c] ++ s, rest)
      | none => none

/-- Split the leading run of decimal digits off a character list. -/
def takeDigits (l : List Char) : List Char × List Char :=
  (l.takeWhile Char.isDigit, l.dropWhile Char.isDigit)

/-- Exponent part of a JSON number (optional). -/
def parseNumExp (acc : List Char) (l : List Char) : Option (String × List Char) :=
  match l with
  | c :: r =>
    if c = 'e' ∨ c = 'E' then
      let (sgn, r2) :=
        match r with
        | s :: r2 => if s = '+' ∨ s = '-' then ([s], r2) else (([] : List Char), s :: r2)
        | [] => ([], [])
      let (ds, r3) := takeDigits r2
      if ds = [] then none else some (String.mk (acc ++ c :: (sgn ++ ds)), r3)
    else some (String.mk acc, c :: r)
  | [] => some (String.mk acc, [])

/-- Fraction and exponent parts of a JSON number (both optional). -/
def parseNumFrac (acc : List Char) (l : List Char) : Option (String × List Char) :=
  match l with
  | c :: r =>
    if c = '.' then
      let (ds, r2) := takeDigits r
      if ds = [] then none else parseNumExp (acc ++ c :: ds) r2
    else parseNumExp acc (c :: r)
  | [] => some (String.mk acc, [])

/-- Parse a JSON number, returning its lexeme. -/
def parseNumber (l : List Char) : Option (String × List Char) :=
  let (neg, l1) := match l with | c :: r => if c = '-' then (['-'], r) else (([] : List Char), l) | [] => ([], l)
  match l1 with
  | c :: r =>
    if c = '0' then parseNumFrac (neg ++ ['0']) r
    else if c.isDigit then
      let (ds, r2) := takeDigits r
      parseNumFrac (neg ++ c :: ds) r2
    else none
  | [] => none

/-- A partially-built JSON container on the parser stack. -/
inductive JFrame where
  | arrF (elems : List Json) : JFrame
  | objF (members : List (String × Json)) (key : String) : JFrame

/-- One-pass JSON parser: `none` in the last argument means a value is
expected next; `some v` means value `v` has just been completed and the
stack decides what follows.  Fuel bounds the recursion; every step consumes
at least one input character, so `length + 1` fuel always suffices. -/
def runParse : Nat → List Char → List JFrame → Option Json → Option (Json × List Char)
  | 0, _, _, _ => none
  | fuel + 1, input, stack, none =>
    let l := skipWs input
    match l with
    | [] => none
    | c :: r =>
      if c = '[' then
        match skipWs r with
        | ']' :: r2 => runParse fuel r2 stack (some (.arr []))
        | _ => runParse fuel r (.arrF [] :: stack) none
      else if c = '\x7b' then
        match skipWs r with
        | '\x7d' :: r2 => runParse fuel r2 stack (some (.obj []))
        | '"' :: r2 =>
          match parseStringBody r2 with
          | some (k, r3) =>
            match skipWs r3 with
            | ':' :: r4 => runParse fuel r4 (.objF [] k :: stack) none
            | _ => none
          | none => none
        | _ => none
      else if c = '"' then
        match parseStringBody r with
        | some (s, r2) => runParse fuel r2 stack (some (.str s))
        | none => none
      else if ['t', 'r', 'u', 'e'].isPrefixOf l then
        runParse fuel (l.drop 4) stack (some (.bool true))
      else if ['f', 'a', 'l', 's', 'e'].isPrefixOf l then
        runParse fuel (l.drop 5) stack (some (.bool false))
      else if ['n', 'u', 'l', 'l'].isPrefixOf l then
        runParse fuel (l.drop 4) stack (some .null)
      else
        match parseNumber l with
        | some (s, r2) => runParse fuel r2 stack (some (.num s))
        | none => none
  | fuel + 1, input, stack, some v =>
    match stack with
    | [] => some (v, input)
    | .arrF elems :: st =>
      (match skipWs input with
       | ',' :: r => runParse fuel r (.arrF (elems ++ [v]) :: st) none
       | ']' :: r => runParse fuel r st (some (.arr (elems ++ [v])))
       | _ => none)
    | .objF mems k :: st =>
      (match skipWs input with
       | ',' :: r =>
         (match skipWs r with
          | '"' :: r2 =>
            (match parseStringBody r2 with
             | some (k2, r3) =>
               (match skipWs r3 with
                | ':' :: r4 => runParse fuel r4 (.objF (mems ++ [(k, v)]) k2 :: st) none
                | _ => none)
             | none => none)
          | _ => none)
       | '\x7d' :: r => runParse fuel r st (some (.obj (mems ++ [(k, v)])))
       | _ => none)

/-- `serde_json::from_str::<Value>`: parse a complete JSON document; the
whole input must be consumed up to trailing whitespace. -/
def parseJson (s : String) : Option Json :=
  match runParse (s.length + 1) s.data [] none with
  | some (v, rest) => if skipWs rest = [] then some v else none
  | none => none

/-- `value[key]` for `serde_json::Value`: member lookup, `Null` when the
value is not an object or the key is absent.  With duplicate keys the later
member wins, as in `serde_json`'s map built by insertion. -/
def Json.getField (j : Json) (key : String) : Json :=
  match j with
  | .obj ms =>
    match ms.reverse.find? (fun m => m.1 == key) with
    | some m => m.2
    | none => .null
  | _ => .null

/-- `value[i]` for `serde_json::Value`: array indexing, `Null` out of
bounds or on a non-array. -/
def Json.index (j : Json) (i : Nat) : Json :=
  match j with
  | .arr xs => xs.getD i .null
  | _ => .null

/-- `Value::as_str`. -/
def Json.asStr : Json → Option String
  | .str s => some s
  | _ => none

/-! ## Wire adapters

The response body arrives as a list of lines (`BufReader::lines`).  Each
adapter returns the accumulated text together with the fragments echoed to
stdout while streaming; fallible paths return `Except`.  The `for` loops of
the source are rendered as structural recursion over the line list. -/

/-- Concatenation of a list of strings in order (accumulation by repeated
`push_str`). -/
def concatAll : List String → String
  | [] => ""
  | s :: rest => s ++ concatAll rest

/-- Project the accumulated text out of an adapter result, dropping the
echoed fragments. -/
def exceptText : Except String (String × List String) → Except String String
  | .ok p => .ok p.1
  | .error e => .error e

/-- Is an adapter result an error? -/
def isErr : Except String (String × List String) → Bool
  | .ok _ => false
  | .error _ => true

/-- Body processing of `Ollama::send_prompt` (src/api/ollama.rs, lines
54-71): skip empty lines; parse every other line as JSON, where a parse
failure aborts the whole call (the source applies the `?` operator to
`serde_json::from_str`); extract the string field `response` when present
and append it, echoing it first when `stream` is set. -/
def ollamaProcessLines (stream : Bool) : List String → Except String (String × List String)
  | [] => .ok ("", [])
  | line :: rest =>
    if line = "" then ollamaProcessLines stream rest
    else
      match parseJson line with
      | none => .error ("JSON parse error on line: " ++ line)
      | some j =>
        match Json.asStr (Json.getField j "response") with
        | some text =>
          (match ollamaProcessLines stream rest with
           | .ok (acc, out) => .ok (text ++ acc, if stream then text :: out else out)
           | .error e => .error e)
        | none => ollamaProcessLines stream rest

/-- Extraction attempted on each line by the streaming loop of
`OpenAI::send_prompt` (src/api/openai.rs, lines 65-83): empty lines and
the `data: [DONE]` sentinel are skipped; a line with the `data: ` marker
is stripped of it and parsed, a parse failure or a missing
`choices[0].delta.content` silently skipping the line. -/
def sseLineContent (line : String) : Option String :=
  if line = "" ∨ line = "data: [DONE]" then none
  else if "data: ".data.isPrefixOf line.data then
    match parseJson (String.mk (line.data.drop 6)) with
    | some j =>
      Json.asStr (Json.getField (Json.getField (Json.index (Json.getField j "choices") 0) "delta") "content")
    | none => none
  else none

/-- Streaming body processing of `OpenAI::send_prompt`: every extracted
fragment is echoed and appended in arrival order. -/
def openaiStreamLines : List String → String × List String
  | [] => ("", [])
  | line :: rest =>
    let r := openaiStreamLines rest
    match sseLineContent line with
    | some content => (content ++ r.1, content :: r.2)
    | none => r

/-- Non-streaming body processing of `OpenAI::send_prompt` (src/api/
openai.rs, lines 86-95): parse the whole body (a failure of
`response.json()` is fatal); if `choices[0].message.content` is a string
it becomes the response, otherwise the accumulator stays empty and the
call still succeeds. -/
def openaiNonStreaming (body : String) : Except String String :=
  match parseJson body with
  | none => .error "invalid JSON body"
  | some j =>
    match Json.asStr (Json.getField (Json.getField (Json.index (Json.getField j "choices") 0) "message") "content") with
    | some content => .ok content
    | none => .ok ""

/-! ## Provider construction (`ApiClient::new`, src/api/mod.rs lines 28-37)

The trait object `Box<dyn Provider>` becomes a closed sum of the provider
structs actually registered by the match in `ApiClient::new`; each variant
carries the fields of the corresponding struct after its `new`, including
the defaulted base URL.  `src/api/gemini.rs` defines a `Gemini` provider,
but `mod.rs` neither declares `mod gemini` nor has a `"Gemini"` match arm,
so no variant for it can arise from `ApiClient::new`. -/

inductive Provider where
  | openAI (api_key base_url : String) : Provider
  | anthropic (api_key base_url : String) : Provider
  | ollama (base_url : String) : Provider
deriving DecidableEq

/-- `ApiClient::new(provider_name, api_key, base_url)`. -/
def apiClientNew (provider_name api_key : String) (base_url : Option String) : Except String Provider :=
  if provider_name = "OpenAI" then
    .ok (.openAI api_key (base_url.getD "https://api.openai.com"))
  else if provider_name = "Anthropic" then
    .ok (.anthropic api_key (base_url.getD "https://api.anthropic.com"))
  else if provider_name = "Ollama" then
    .ok (.ollama (base_url.getD "http://localhost:11434"))
  else .error ("Unsupported provider: " ++ provider_name)

/-- Response-body extraction of `Gemini::send_prompt` (src/api/gemini.rs,
lines 66-93): parse the body, then concatenate the string `text` of every
element of `candidates[0].content.parts`; the `stream` flag only chooses
whether each part is also echoed. -/
def geminiExtract (body : String) : Except String String :=
  match parseJson body with
  | none => .error "invalid JSON body"
  | some j =>
    match Json.getField j "candidates" with
    | .arr cands =>
      (match cands.head? with
       | some cand =>
         (match Json.getField cand "content" with
          | .obj cmembers =>
            (match Json.getField (.obj cmembers) "parts" with
             | .arr parts => .ok (concatAll (parts.filterMap (fun p => Json.asStr (Json.getField p "text"))))
             | _ => .ok "")
          | _ => .ok "")
       | none => .ok "")
    | _ => .ok ""

/-! ## Post-hoc thinking filter (`stream_response`, src/prompt.rs lines 139-157)

When `filter_thinking` is set the source runs one
`Regex::replace_all` pass with the non-greedy pattern
`<think>.*?</think>` over the complete accumulated text.  In Rust's regex
crate `.` does not match a newline, the lazy `.*?` stops at the first
`</think>` reachable without one, matches are taken leftmost-first without
overlap, and scanning resumes immediately after each removed match. -/

/-- The literal `<think>`. -/
def openTag : List Char := ['<', 't', 'h', 'i', 'n', 'k', '>']

/-- The literal `</think>`. -/
def closeTag : List Char := ['<', '/', 't', 'h', 'i', 'n', 'k', '>']

/-- Lazy search for `</think>` just after a matched `<think>`: returns the
total number of characters up to and including the closing tag, failing at
the first newline (which `.` cannot cross) or at end of input. -/
def findClose : List Char → Option Nat
  | [] => none
  | c :: cs =>
    if closeTag.isPrefixOf (c :: cs) then some 8
    else if c = '\n' then none
    else
      match findClose cs with
      | some k => some (k + 1)
      | none => none

/-- One `replace_all` pass, fuelled (one unit per scanning position; the
wrapper supplies the input length, which always suffices because every
step consumes at least one character). -/
def removeThinkFuel : Nat → List Char → List Char
  | 0, s => s
  | _ + 1, [] => []
  | fuel + 1, c :: cs =>
    if openTag.isPrefixOf (c :: cs) then
      match findClose (cs.drop 6) with
      | some k => removeThinkFuel fuel (cs.drop (6 + k))
      | none => c :: removeThinkFuel fuel cs
    else c :: removeThinkFuel fuel cs

/-- `Regex::new("<think>.*?</think>").replace_all(text, "")` on the
character list of the text. -/
def removeThink (s : List Char) : List Char :=
  removeThinkFuel s.length s

/-- The post-hoc branch of `stream_response`: the filtered text. -/
def filterThinking (response : String) : String :=
  String.mk (removeThink response.data)

/-- `stream_response`'s result as a function of the accumulated provider
text: filtered only when post-hoc filtering was requested. -/
def stream_response (response : String) (filter_thinking : Bool) : String :=
  if filter_thinking then filterThinking response else response

/-- Does the text contain a match of `<think>.*?</think>` anywhere? -/
def hasThinkMatch : List Char → Bool
  | [] => false
  | c :: cs =>
    (openTag.isPrefixOf (c :: cs) && (findClose (cs.drop 6)).isSome) || hasThinkMatch cs

/-- `hasThinkMatch` on a string. -/
def hasThinkSpan (s : String) : Bool :=
  hasThinkMatch s.data

/-! ## Prompt assembler (`format_prompt`, src/api/mod.rs lines 80-106)

The section labels come from the settings file
(`Settings::load().unwrap_or_default()`); the settings value is passed
explicitly here.  The fields mirror `PromptTemplate` in src/settings.rs
(`goals_prefix`, `return_format_prefix`, `warnings_prefix`). -/

structure PromptTemplate where
  goalsLabel : String
  returnFormatLabel : String
  warningsLabel : String

/-- The default `PromptTemplate` of src/settings.rs (lines 95-105). -/
def defaultPromptTemplate : PromptTemplate :=
  ⟨"🏆 Goals: ", "📝 Return Format: ", "⚠️ Warnings: "⟩

/-- `format_prompt(goals, return_type, warnings, context)`. -/
def format_prompt (tpl : PromptTemplate) (goals return_type warnings : String)
    (context : Option String) : String :=
  match context with
  | some ctx =>
    tpl.goalsLabel ++ goals ++ "\n" ++ tpl.returnFormatLabel ++ return_type ++ "\n" ++
      tpl.warningsLabel ++ warnings ++ "\nContext: " ++ ctx
  | none =>
    tpl.goalsLabel ++ goals ++ "\n" ++ tpl.returnFormatLabel ++ return_type ++ "\n" ++
      tpl.warningsLabel ++ warnings

/-! ## Recursive waves (`run_prompt`, src/main.rs lines 687-861)

One invocation reads its wave number from the `OLA_RECURSION_WAVE`
environment variable (0 when unset), runs the prompt — `structure_reasoning`
copies the response to the clipboard once if the flag is set — and then,
when `wave_number < max_waves`, spawns the executable again with the wave
number incremented and the same flags (clipboard included), blocking on the
child.  The model returns the wave numbers of every process invocation of
the session in execution order, together with the wave numbers at which a
clipboard copy happens.  The recursion is driven by a counter that the
wrapper starts at `max - wave`, the number of spawns still permitted. -/

def runPromptAux (clip : Bool) (max : Nat) : Nat → Nat → List Nat × List Nat
  | 0, wave => ([wave], if clip then [wave] else [])
  | gas + 1, wave =>
    if wave < max then
      let rest := runPromptAux clip max gas (wave + 1)
      (wave :: rest.1, (if clip then [wave] else []) ++ rest.2)
    else ([wave], if clip then [wave] else [])

/-- The full recursive session started at wave `wave` with limit `max`:
first component the waves that execute, second the waves after which the
response is copied to the clipboard. -/
def run_prompt_waves (clip : Bool) (max wave : Nat) : List Nat × List Nat :=
  runPromptAux clip max (max - wave) wave

/-! ## Iterative feedback (`interactive_iterations`, src/prompt.rs lines 220-310)

`ConversationHistory` entries; `response` is empty exactly for feedback
marker entries, whose `goals` field carries the `FEEDBACK: ` marker. -/

structure FeedbackInteraction where
  iteration : Nat
  goals : String
  response : String
deriving DecidableEq

/-- `str::trim` on the raw line read from stdin: leading and trailing
whitespace removed. -/
def rustTrim (s : String) : String :=
  String.mk (((s.data.dropWhile Char.isWhitespace).reverse.dropWhile Char.isWhitespace).reverse)

/-- The default improvement feedback generated when the user enters no
text (src/prompt.rs lines 286-289). -/
def defaultFeedback (nextIteration maxIterations : Nat) : String :=
  "Please review your previous response and improve it by making it more comprehensive, clearer, and better structured. This is iteration " ++
    toString nextIteration ++ " of " ++ toString maxIterations ++
    ", so focus on refinement and quality enhancement."

/-- The `for iteration in 1..=max_iterations` loop of
`interactive_iterations`.  `respond` stands for the provider call
`execute_feedback_prompt` (a function of the conversation history so far),
`fbIn` for the raw line read from stdin at the end of round `i`; the loop
trims it and records either the user feedback or the auto-generated
default.  The clipboard copy is gated on the final iteration.  The second
result component lists the iterations after which a copy happened. -/
def interactiveIterationsAux (goals : String) (maxIter : Nat)
    (respond : List FeedbackInteraction → String) (fbIn : Nat → String) (clip : Bool) :
    Nat → List FeedbackInteraction → List Nat → List FeedbackInteraction × List Nat
  | 0, hist, copies => (hist, copies)
  | remaining + 1, hist, copies =>
    let iteration := maxIter - remaining
    let response := respond hist
    let hist2 := hist ++ [⟨iteration, goals, response⟩]
    let copies2 := if clip ∧ iteration = maxIter then copies ++ [iteration] else copies
    if iteration < maxIter then
      let fb := rustTrim (fbIn iteration)
      let entry : FeedbackInteraction :=
        if fb ≠ "" then ⟨iteration, "FEEDBACK: " ++ fb, ""⟩
        else ⟨iteration, "FEEDBACK: " ++ defaultFeedback (iteration + 1) maxIter, ""⟩
      interactiveIterationsAux goals maxIter respond fbIn clip remaining (hist2 ++ [entry]) copies2
    else
      interactiveIterationsAux goals maxIter respond fbIn clip remaining hist2 copies2

/-- `interactive_iterations(goals, ..., clipboard, ..., max_iterations)`:
final conversation history and clipboard-copy rounds. -/
def interactiveIterations (goals : String) (maxIter : Nat)
    (respond : List FeedbackInteraction → String) (fbIn : Nat → String) (clip : Bool) :
    List FeedbackInteraction × List Nat :=
  interactiveIterationsAux goals maxIter respond fbIn clip maxIter [] []

/-- Is a history entry a `FEEDBACK: ` marker entry?  This is the test the
source itself applies when rebuilding the prompt and when analyzing
feedback (src/prompt.rs lines 524 and 577). -/
def isFeedbackEntry (e : FeedbackInteraction) : Bool :=
  "FEEDBACK: ".data.isPrefixOf e.goals.data

/-- Declarative per-line extraction of the NDJSON adapter in the absence of
malformed lines: an empty line contributes nothing, any other line
contributes its string `response` field when present. -/
def ndjsonLineText (l : String) : Option String :=
  if l = "" then none
  else
    match parseJson l with
    | some j => Json.asStr (Json.getField j "response")
    | none => none

/-! ## Helper lemmas -/

theorem openai_sse_stream_accumulates (lines : List String) :
    openaiStreamLines lines =
      (concatAll (lines.filterMap sseLineContent), lines.filterMap sseLineContent) := by
  induction lines with
  | nil => rfl
  | cons l ls ih =>
    cases h : sseLineContent l <;>
      simp [openaiStreamLines, List.filterMap_cons, h, ih, concatAll]

theorem ollama_text_indep (lines : List String) :
    exceptText (ollamaProcessLines true lines) = exceptText (ollamaProcessLines false lines) := by
  induction lines with
  | nil => rfl
  | cons l ls ih =>
    by_cases he : l = ""
    · simp [ollamaProcessLines, he, ih]
    · cases hj : parseJson l with
      | none => simp [ollamaProcessLines, if_neg he, hj]
      | some j =>
        cases ha : Json.asStr (Json.getField j "response") with
        | none => simpa [ollamaProcessLines, if_neg he, hj, ha] using ih
        | some t =>
          cases h1 : ollamaProcessLines true ls <;> cases h2 : ollamaProcessLines false ls <;>
            simp [ollamaProcessLines, if_neg he, hj, ha, exceptText, h1, h2] at ih ⊢ <;>
              simp [ih]

theorem ollama_no_echo_nonstream (lines : List String) :
    ∀ p, ollamaProcessLines false lines = .ok p → p.2 = [] := by
  induction lines with
  | nil => intro p hp; cases hp; rfl
  | cons l ls ih =>
    intro p hp
    by_cases he : l = ""
    · exact ih p (by simpa [ollamaProcessLines, he] using hp)
    · simp only [ollamaProcessLines, if_neg he] at hp
      split at hp
      · cases hp
      · split at hp
        · split at hp
          · cases hp
            simpa using ih _ (by assumption)
          · cases hp
        · exact ih p hp

theorem ollama_all_parse_concat (lines : List String)
    (h : ∀ l ∈ lines, l ≠ "" → (parseJson l).isSome = true) :
    exceptText (ollamaProcessLines false lines) =
      .ok (concatAll (lines.filterMap ndjsonLineText)) := by
  induction lines with
  | nil => rfl
  | cons l ls ih =>
    have hls : ∀ l2 ∈ ls, l2 ≠ "" → (parseJson l2).isSome = true := by
      intro l2 hm hne; exact h l2 (List.mem_cons_of_mem _ hm) hne
    by_cases he : l = ""
    · simp [ollamaProcessLines, he, ndjsonLineText, ih hls, List.filterMap_cons]
    · cases hj : parseJson l with
      | none =>
        have := h l (List.mem_cons_self _ _) he
        rw [hj] at this; cases this
      | some j =>
        cases ha : Json.asStr (Json.getField j "response") with
        | none =>
          simpa [ollamaProcessLines, if_neg he, hj, ha, ndjsonLineText,
            List.filterMap_cons] using ih hls
        | some t =>
          have ihe := ih hls
          cases hr : ollamaProcessLines false ls with
          | error e => rw [hr] at ihe; cases ihe
          | ok q =>
            rw [hr] at ihe
            simp only [exceptText, Except.ok.injEq] at ihe
            simp [ollamaProcessLines, if_neg he, hj, ha, hr, exceptText,
              ndjsonLineText, List.filterMap_cons, concatAll, ihe]

theorem ollama_malformed_somewhere_fails (lines : List String) :
    ∀ l ∈ lines, l ≠ "" → parseJson l = none →
      isErr (ollamaProcessLines false lines) = true := by
  induction lines with
  | nil => intro l hm; cases hm
  | cons l0 ls ih =>
    intro l hm hne hno
    rcases List.mem_cons.mp hm with h0 | hmem
    · subst h0
      simp [ollamaProcessLines, if_neg hne, hno, isErr]
    · by_cases he : l0 = ""
      · simpa [ollamaProcessLines, he] using ih l hmem hne hno
      · cases hj : parseJson l0 with
        | none => simp [ollamaProcessLines, if_neg he, hj, isErr]
        | some j =>
          cases ha : Json.asStr (Json.getField j "response") with
          | none =>
            simpa [ollamaProcessLines, if_neg he, hj, ha] using ih l hmem hne hno
          | some t =>
            have ihe := ih l hmem hne hno
            cases hr : ollamaProcessLines false ls with
            | error e => simp [ollamaProcessLines, if_neg he, hj, ha, hr, isErr]
            | ok q => rw [hr] at ihe; cases ihe

theorem removeThinkFuel_of_no_match :
    ∀ (fuel : Nat) (l : List Char), hasThinkMatch l = false → removeThinkFuel fuel l = l := by
  intro fuel
  induction fuel with
  | zero => intro l _; rfl
  | succ f ih =>
    intro l h
    cases l with
    | nil => rfl
    | cons c cs =>
      simp only [hasThinkMatch, Bool.or_eq_false_iff, Bool.and_eq_false_iff] at h
      obtain ⟨h1, h2⟩ := h
      by_cases hp : openTag.isPrefixOf (c :: cs)
      · rcases h1 with h1 | h1
        · rw [hp] at h1; cases h1
        · cases hf : findClose (cs.drop 6) with
          | none => simp [removeThinkFuel, hp, hf, ih cs h2]
          | some k => rw [hf] at h1; cases h1
      · simp [removeThinkFuel, hp, ih cs h2]

theorem filterThinking_of_no_span (s : String) (h : hasThinkSpan s = false) :
    filterThinking s = s := by
  unfold filterThinking removeThink
  rw [removeThinkFuel_of_no_match _ _ h]

theorem runPromptAux_eq (clip : Bool) (max : Nat) :
    ∀ (gas wave : Nat), max - wave = gas → wave ≤ max →
      runPromptAux clip max gas wave =
        (List.range' wave (gas + 1), if clip then List.range' wave (gas + 1) else []) := by
  intro gas
  induction gas with
  | zero =>
    intro wave hg hw
    have : ¬ wave < max := by omega
    simp [runPromptAux, this]
  | succ g ih =>
    intro wave hg hw
    have hlt : wave < max := by omega
    have := ih (wave + 1) (by omega) (by omega)
    simp only [runPromptAux, if_pos hlt, this, List.range'_succ]
    cases clip <;> simp [List.range'_succ]

theorem run_prompt_waves_eq (clip : Bool) (max wave : Nat) (h : wave ≤ max) :
    run_prompt_waves clip max wave =
      (List.range' wave (max - wave + 1), if clip then List.range' wave (max - wave + 1) else []) :=
  runPromptAux_eq clip max (max - wave) wave rfl h

theorem interactiveIterationsAux_copies (goals : String) (maxIter : Nat)
    (respond : List FeedbackInteraction → String) (fbIn : Nat → String) :
    ∀ (rem : Nat), 1 ≤ rem → rem ≤ maxIter →
      ∀ (hist : List FeedbackInteraction) (copies : List Nat),
        (interactiveIterationsAux goals maxIter respond fbIn true rem hist copies).2 =
          copies ++ [maxIter] := by
  intro rem
  induction rem with
  | zero => intro h1 _; omega
  | succ r ih =>
    intro _ hle hist copies
    by_cases hr : r = 0
    · subst hr
      have hmx : 1 ≤ maxIter := hle
      have h0 : maxIter - 0 = maxIter := by omega
      have hnlt : ¬ maxIter < maxIter := by omega
      simp [interactiveIterationsAux, h0, hnlt]
    · have hr1 : 1 ≤ r := by omega
      have hne : ¬ (maxIter - r = maxIter) := by omega
      simp only [interactiveIterationsAux, hne, and_false, if_false]
      split
      · exact ih hr1 (by omega) _ _
      · exact ih hr1 (by omega) _ _

theorem interactiveIterations_copy_final (goals : String) (maxIter : Nat)
    (respond : List FeedbackInteraction → String) (fbIn : Nat → String)
    (h : 1 ≤ maxIter) :
    (interactiveIterations goals maxIter respond fbIn true).2 = [maxIter] := by
  simpa using interactiveIterationsAux_copies goals maxIter respond fbIn maxIter h le_rfl [] []

/-! ## Claims -/

/-- Claim C1, counterexample: inserting one unparseable line between two
valid NDJSON lines makes `Ollama::send_prompt` fail with an error instead
of returning the concatenation `"AB"` of the two valid lines' `response`
fields — the source applies `?` to `serde_json::from_str` on every
non-empty line, so a malformed line aborts the whole call. -/
theorem ollama_ndjson_malformed_counterexample :
    ollamaProcessLines false
        ["\x7b\"response\":\"A\"\x7d", "this line is not JSON", "\x7b\"response\":\"B\"\x7d"] =
      .error "JSON parse error on line: this line is not JSON" ∧
    exceptText (ollamaProcessLines false
        ["\x7b\"response\":\"A\"\x7d", "this line is not JSON", "\x7b\"response\":\"B\"\x7d"]) =
      .error "JSON parse error on line: this line is not JSON" :=
  ⟨rfl, rfl⟩

/-- Claim C1, amended: the NDJSON adapter skips empty lines and returns
the concatenation of the `response` fields of the parsed lines only when
every non-empty line parses as JSON; a non-empty line that fails to parse
makes the whole call fail (no tolerant skipping of malformed lines). -/
theorem ollama_ndjson_amended (lines : List String) :
    ((∀ l ∈ lines, l ≠ "" → (parseJson l).isSome = true) →
      exceptText (ollamaProcessLines false lines) =
        .ok (concatAll (lines.filterMap ndjsonLineText))) ∧
    (∀ l ∈ lines, l ≠ "" → parseJson l = none →
      isErr (ollamaProcessLines false lines) = true) :=
  ⟨fun h => ollama_all_parse_concat lines h, ollama_malformed_somewhere_fails lines⟩

/-- Witness for C1's amended theorem at concrete bodies: a fully
well-formed two-line body yields `"AB"`, and the body with the malformed
middle line yields an error. -/
theorem ollama_ndjson_amended_witness :
    exceptText (ollamaProcessLines false
        ["\x7b\"response\":\"A\"\x7d", "\x7b\"response\":\"B\"\x7d"]) = .ok "AB" ∧
    isErr (ollamaProcessLines false
        ["\x7b\"response\":\"A\"\x7d", "this line is not JSON", "\x7b\"response\":\"B\"\x7d"]) = true :=
  ⟨((ollama_ndjson_amended ["\x7b\"response\":\"A\"\x7d", "\x7b\"response\":\"B\"\x7d"]).1
      (by decide)).trans (by rfl),
   (ollama_ndjson_amended
      ["\x7b\"response\":\"A\"\x7d", "this line is not JSON", "\x7b\"response\":\"B\"\x7d"]).2
      "this line is not JSON" (by decide) (by decide) rfl⟩

/-- Claim C2, counterexample: the post-hoc filter is not idempotent.
Removing the span `<think>x</think>` from
`<th<think>x</think>ink>y</think>` splices the remaining text into the new
span `<think>y</think>`, which a second pass removes entirely. -/
theorem think_filter_not_idempotent_counterexample :
    filterThinking "<th<think>x</think>ink>y</think>" = "<think>y</think>" ∧
    filterThinking (filterThinking "<th<think>x</think>ink>y</think>") = "" ∧
    filterThinking (filterThinking "<th<think>x</think>ink>y</think>") ≠
      filterThinking "<th<think>x</think>ink>y</think>" := by
  decide

/-- Claim C2, amended: the post-hoc pass removes each leftmost
non-overlapping non-greedy `<think>...</think>` span in a single pass
(multiple spans supported), and a text containing no such span is returned
unchanged; the operation is however not idempotent in general, because a
removal can splice the surrounding text into a new span. -/
theorem think_filter_amended :
    (∀ s : String, hasThinkSpan s = false → filterThinking s = s) ∧
    filterThinking "a<think>x</think>b<think>y</think>c" = "abc" :=
  ⟨filterThinking_of_no_span, by decide⟩

/-- Witness for C2's amended theorem: a span-free text is left unchanged. -/
theorem think_filter_amended_witness :
    hasThinkSpan "plain text" = false ∧ filterThinking "plain text" = "plain text" :=
  ⟨by decide, think_filter_amended.1 "plain text" (by decide)⟩

/-- Claim C3, counterexample: with `max_waves = 3` and the wave variable
unset (wave 0), the session executes waves 0, 1, 2 and 3 — four process
invocations, not three: the source spawns whenever `wave_number <
max_waves`, so wave 2 still spawns wave 3. -/
theorem recursive_wave_count_counterexample :
    (run_prompt_waves false 3 0).1 = [0, 1, 2, 3] ∧
    (run_prompt_waves false 3 0).1.length ≠ 3 := by
  decide

/-- Claim C3, amended: in recursive-wave mode started at `wave ≤ max` the
invariant `wave ≤ wave_number ≤ max_waves` holds for every invocation, a
new child is spawned only while `wave_number < max_waves`, the invocations
are exactly the waves `wave, wave+1, ..., max_waves` (hence `max_waves -
wave + 1` of them, with no further spawn once `wave_number = max_waves`),
and with `max_waves = 3` and the environment variable unset exactly 4
invocations occur (waves 0, 1, 2, 3). -/
theorem recursive_wave_amended (clip : Bool) (max wave : Nat) (h : wave ≤ max) :
    (run_prompt_waves clip max wave).1 = List.range' wave (max - wave + 1) ∧
    (∀ w ∈ (run_prompt_waves clip max wave).1, wave ≤ w ∧ w ≤ max) ∧
    (run_prompt_waves clip max wave).1.length = max - wave + 1 ∧
    (run_prompt_waves clip 3 0).1.length = 4 := by
  have he := run_prompt_waves_eq clip max wave h
  have he3 := run_prompt_waves_eq clip 3 0 (by omega)
  refine ⟨by rw [he], ?_, by rw [he]; simp, by rw [he3]; simp⟩
  intro w hw
  rw [he] at hw
  simp only [List.mem_range'_1] at hw
  omega

/-- Witness for C3's amended theorem at `max_waves = 3`, wave 0. -/
theorem recursive_wave_amended_witness :
    (run_prompt_waves false 3 0).1 = List.range' 0 (3 - 0 + 1) :=
  (recursive_wave_amended false 3 0 (by decide)).1

/-- Claim C4, counterexample: in recursive mode with the clipboard flag
and `max_waves = 1`, a clipboard copy happens after wave 0 — an
intermediate round — and again after wave 1: two copies in one session,
not a single copy after the final round (each wave's `structure_reasoning`
copies, and `run_prompt` re-serializes `--clipboard` to the child). -/
theorem clipboard_copy_counterexample :
    (run_prompt_waves true 1 0).2 = [0, 1] ∧
    (run_prompt_waves true 1 0).2 ≠ [1] := by
  decide

/-- Claim C4, amended: in iterative mode (`interactive_iterations`) the
response is copied to the clipboard exactly once, after the final round
only; in recursive mode the clipboard flag is propagated to every wave and
a copy occurs after every wave of the session, not only after the final
one. -/
theorem clipboard_copy_amended :
    (∀ (goals : String) (maxIter : Nat) (respond : List FeedbackInteraction → String)
        (fbIn : Nat → String), 1 ≤ maxIter →
      (interactiveIterations goals maxIter respond fbIn true).2 = [maxIter]) ∧
    (∀ (clip : Bool) (max wave : Nat), wave ≤ max →
      (run_prompt_waves clip max wave).2 =
        if clip then List.range' wave (max - wave + 1) else []) :=
  ⟨interactiveIterations_copy_final,
   fun clip max wave h => by rw [run_prompt_waves_eq clip max wave h]⟩

/-- Witness for C4's amended theorem: one copy after round 1 of a
one-round iterative session, and per-wave copies in a two-wave recursive
session. -/
theorem clipboard_copy_amended_witness :
    (interactiveIterations "G" 1 (fun _ => "R") (fun _ => "") true).2 = [1] ∧
    (run_prompt_waves true 2 0).2 = (if true then List.range' 0 (2 - 0 + 1) else []) :=
  ⟨clipboard_copy_amended.1 "G" 1 (fun _ => "R") (fun _ => "") (by decide),
   clipboard_copy_amended.2 true 2 0 (by decide)⟩

/-- Claim C5 (code bug): `ApiClient::new` constructs providers for
`OpenAI`, `Anthropic` and `Ollama` but rejects `Gemini` with
`Unsupported provider: Gemini`, although the configure flow of
src/main.rs offers `Gemini` as a provider and src/api/gemini.rs fully
implements it (parsing `candidates[0].content.parts[].text`, last
conjunct); the match arm (and the `mod gemini` declaration) is missing
from src/api/mod.rs. -/
theorem gemini_not_registered :
    apiClientNew "Gemini" "secret" none = .error "Unsupported provider: Gemini" ∧
    apiClientNew "OpenAI" "secret" none = .ok (.openAI "secret" "https://api.openai.com") ∧
    apiClientNew "Anthropic" "secret" none = .ok (.anthropic "secret" "https://api.anthropic.com") ∧
    apiClientNew "Ollama" "" none = .ok (.ollama "http://localhost:11434") ∧
    apiClientNew "Mistral" "secret" none = .error "Unsupported provider: Mistral" ∧
    geminiExtract "\x7b\"candidates\":[\x7b\"content\":\x7b\"parts\":[\x7b\"text\":\"He\"\x7d,\x7b\"text\":\"llo\"\x7d]\x7d\x7d]\x7d" =
      .ok "Hello" :=
  ⟨rfl, rfl, rfl, rfl, rfl, rfl⟩

/-- Claim C6: for every response body, the SSE-style adapter skips empty
lines and `data: [DONE]`, strips the `data: ` marker, parses the
remainder and concatenates every `choices[0].delta.content` in arrival
order (also echoing each one); in particular the two-line body of the
claim accumulates to `"Hi"`. -/
theorem openai_sse_streaming :
    (∀ lines : List String,
      openaiStreamLines lines =
        (concatAll (lines.filterMap sseLineContent), lines.filterMap sseLineContent)) ∧
    openaiStreamLines
        ["data: \x7b\"choices\":[\x7b\"delta\":\x7b\"content\":\"Hi\"\x7d\x7d]\x7d", "data: [DONE]"] =
      ("Hi", ["Hi"]) :=
  ⟨openai_sse_stream_accumulates, by decide⟩

/-- Claim C7: two iterative-feedback rounds with no user feedback entered
leave a conversation history of exactly two response entries with exactly
one auto-generated feedback marker entry between them. -/
theorem iterative_feedback_history (goals : String)
    (respond : List FeedbackInteraction → String) (fbIn : Nat → String)
    (hf : rustTrim (fbIn 1) = "") (hg : "FEEDBACK: ".data.isPrefixOf goals.data = false) :
    (interactiveIterations goals 2 respond fbIn false).1 =
      [⟨1, goals, respond []⟩,
       ⟨1, "FEEDBACK: " ++ defaultFeedback 2 2, ""⟩,
       ⟨2, goals, respond [⟨1, goals, respond []⟩, ⟨1, "FEEDBACK: " ++ defaultFeedback 2 2, ""⟩]⟩] ∧
    ((interactiveIterations goals 2 respond fbIn false).1).map isFeedbackEntry =
      [false, true, false] := by
  have hlist :
      (interactiveIterations goals 2 respond fbIn false).1 =
        [⟨1, goals, respond []⟩,
         ⟨1, "FEEDBACK: " ++ defaultFeedback 2 2, ""⟩,
         ⟨2, goals, respond [⟨1, goals, respond []⟩, ⟨1, "FEEDBACK: " ++ defaultFeedback 2 2, ""⟩]⟩] := by
    simp [interactiveIterations, interactiveIterationsAux, hf]
  refine ⟨hlist, ?_⟩
  rw [hlist]
  simp [isFeedbackEntry, hg]

/-- Witness for C7 at concrete goals, responses and empty feedback input. -/
theorem iterative_feedback_history_witness :
    (interactiveIterations "G" 2 (fun _ => "R") (fun _ => "") false).1 =
      [⟨1, "G", "R"⟩,
       ⟨1, "FEEDBACK: " ++ defaultFeedback 2 2, ""⟩,
       ⟨2, "G", "R"⟩] ∧
    ((interactiveIterations "G" 2 (fun _ => "R") (fun _ => "") false).1).map isFeedbackEntry =
      [false, true, false] :=
  iterative_feedback_history "G" (fun _ => "R") (fun _ => "") (by decide) (by decide)

/-- Claim C8: with goals `G`, format `F`, warnings `W` and no context the
assembled prompt is exactly the three labeled sections with no trailing
context line; a supplied context appends exactly one labeled context
line. -/
theorem format_prompt_sections :
    format_prompt defaultPromptTemplate "G" "F" "W" none =
      "🏆 Goals: G\n📝 Return Format: F\n⚠️ Warnings: W" ∧
    (∀ (tpl : PromptTemplate) (g f w : String),
      format_prompt tpl g f w none =
        tpl.goalsLabel ++ g ++ "\n" ++ tpl.returnFormatLabel ++ f ++ "\n" ++
          tpl.warningsLabel ++ w) ∧
    (∀ (tpl : PromptTemplate) (g f w ctx : String),
      format_prompt tpl g f w (some ctx) =
        format_prompt tpl g f w none ++ "\nContext: " ++ ctx) :=
  ⟨rfl, fun _ _ _ _ => rfl, fun _ _ _ _ _ => rfl⟩

/-- Claim C9: the text returned by the Ollama adapter is independent of
the streaming flag — both flag values parse the same per-line JSON and
return the same concatenation of `response` fields; without the flag
nothing is echoed to stdout. -/
theorem ollama_stream_flag_independent (lines : List String) :
    exceptText (ollamaProcessLines true lines) = exceptText (ollamaProcessLines false lines) ∧
    (∀ p, ollamaProcessLines false lines = .ok p → p.2 = []) :=
  ⟨ollama_text_indep lines, ollama_no_echo_nonstream lines⟩

/-- Witness for C9 at a concrete one-line body. -/
theorem ollama_stream_flag_independent_witness :
    exceptText (ollamaProcessLines true ["\x7b\"response\":\"A\"\x7d"]) =
      exceptText (ollamaProcessLines false ["\x7b\"response\":\"A\"\x7d"]) ∧
    (("A", ([] : List String)).2 = ([] : List String)) :=
  ⟨(ollama_stream_flag_independent ["\x7b\"response\":\"A\"\x7d"]).1,
   (ollama_stream_flag_independent ["\x7b\"response\":\"A\"\x7d"]).2 ("A", []) rfl⟩

/-- Claim C10: in the non-streaming OpenAI path, a 2xx body that parses as
JSON but has no string at `choices[0].message.content` yields `Ok` with
the empty string, not an error. -/
theorem openai_nonstream_missing_content (body : String) (j : Json)
    (hp : parseJson body = some j)
    (hc : Json.asStr (Json.getField (Json.getField (Json.index (Json.getField j "choices") 0)
            "message") "content") = none) :
    openaiNonStreaming body = .ok "" := by
  simp [openaiNonStreaming, hp, hc]

/-- Witness for C10 at the body `«empty object»`, which parses but has no
`choices` at all. -/
theorem openai_nonstream_missing_content_witness :
    openaiNonStreaming "\x7b\x7d" = .ok "" :=
  openai_nonstream_missing_content "\x7b\x7d" (Json.obj []) rfl rfl
